import Mathlib

/-!
Verification of the QC-StrategyBacktest option-backtesting library.

This file gives a shallow embedding, in Lean 4, of the parts of the
repository that the verified properties are about:

* `Library/BSMLibrary.py` — time-to-expiry (`optionTau`), the degenerate
  branches of `bsmD1` / `bsmDelta`, and the control flow of the
  implied-volatility root finder `bsmIV`;
* `Library/OptionStrategyOrder.py` — `getPayoff`, `computeOrderMaxLoss`
  and the quantity-sizing part of `getOrderDetails`;
* `Library/OptionStrategy.py` — the fill-event state machine
  (`OnOrderEvent`), the stop-loss trigger and the expired-limit-order
  cancellation branch of `managePositions`, and the legacy variant of the
  quantity sizing in its own `getOrderDetails`;
* `Library/OptionStrategyCore.py` — the order validation prefix of
  `openPosition`;
* `Library/StrategyBuilder.py` — the delta bisection search
  (`getDeltaContract`).

Numbers: Python floats are modelled by exact rationals (`ℚ`); quantities
by integers.  Python `round` (banker's rounding, half to even) is modelled
exactly by `pythonRound`.  The transcendental parts of the BSM formulas
(log, sqrt, the normal CDF) are passed in as oracle functions where a
property genuinely does not depend on their values; every claim proved
about such a definition is proved for all oracles, which at the same time
formalises statements of the form "this numeric branch is never executed".
-/

/-- Python `round` on an exact rational: round half to even. -/
def pythonRound (x : ℚ) : ℤ :=
  let f : ℤ := ⌊x⌋
  let r : ℚ := x - f
  if r < 1/2 then f
  else if 1/2 < r then f + 1
  else if f % 2 = 0 then f else f + 1

/-- Python `round(x, 2)` (rounding to the nearest cent, half to even). -/
def pythonRound2 (x : ℚ) : ℚ := (pythonRound (x * 100) : ℚ) / 100

/-- Finite-map update used to model Python dictionary assignment / `pop`. -/
def upd {α β : Type} [DecidableEq α] (m : α → Option β) (k : α) (v : Option β) :
    α → Option β :=
  fun x => if x = k then v else m x

/-- Option right, `OptionRight.Call` / `OptionRight.Put` of the QuantConnect API. -/
inductive OptionRight where
  | Call
  | Put
deriving DecidableEq, Repr, Inhabited

namespace BSM

/-- Days component of a Python `timedelta` holding `d` seconds
(normalised so that `0 ≤ seconds < 86400`; `days` may be negative). -/
def timedeltaDays (d : ℚ) : ℤ := ⌊d / 86400⌋

/-- Seconds component (whole seconds) of a Python `timedelta` holding `d` seconds. -/
def timedeltaSeconds (d : ℚ) : ℤ := ⌊d - 86400 * (⌊d / 86400⌋ : ℚ)⌋

/-- BSM.optionTau (`Library/BSMLibrary.py`, lines 105-117): days to expiry as a
fraction of a year.  Instants (`expiry`, `atTime`) are modelled as rational
timestamps in seconds.  The expiry instant is shifted by 16 hours to market
close; `dte = max(0, timeDiff.days, timeDiff.seconds/(60*390))`; the result is
`dte / tradingDays`. -/
def optionTau (expiry atTime : ℚ) (tradingDays : ℚ) : ℚ :=
  let expiryDttm := expiry + 16 * 3600
  let timeDiff := expiryDttm - atTime
  let dte : ℚ :=
    max (max 0 (timedeltaDays timeDiff : ℚ)) ((timedeltaSeconds timeDiff : ℚ) / (60 * 390))
  dte / tradingDays

/-- BSM.isITM (`Library/BSMLibrary.py`, lines 42-52): a Call is in the money when
`strike < spot`, a Put when `spot < strike`. -/
def isITM (right : OptionRight) (strike spotPrice : ℚ) : Bool :=
  match right with
  | OptionRight.Call => decide (strike < spotPrice)
  | OptionRight.Put => decide (spotPrice < strike)

/-- Extended value: the possible results of `bsmD1`, which the source stores in a
float that is either a finite number or `float('inf')` / `float('-inf')`.
(`NaN` is representable in a float but is never produced by `bsmD1`; the claim
that no `NaN` arises is reflected by its absence from this codomain.) -/
inductive XReal where
  | negInf
  | fin (x : ℚ)
  | posInf
deriving DecidableEq, Repr

/-- Negation on `XReal` (used for the Put delta, `-norm.cdf(-d1)`). -/
def XReal.neg : XReal → XReal
  | XReal.negInf => XReal.posInf
  | XReal.fin x => XReal.fin (-x)
  | XReal.posInf => XReal.negInf

/-- Multiplication `sign * (±inf)` for `sign ∈ {+1, -1}` as it appears in the
source (`d1 = sign * float('inf')`). -/
def XReal.signTimesInf (sign : ℤ) : XReal :=
  if 0 < sign then XReal.posInf else XReal.negInf

/-- Multiplication `sign * float('-inf')`. -/
def XReal.signTimesNegInf (sign : ℤ) : XReal :=
  if 0 < sign then XReal.negInf else XReal.posInf

/-- BSM.bsmD1 (`Library/BSMLibrary.py`, lines 54-88).  In the degenerate case
`tau == 0 or sigma == 0` the source returns a signed infinity chosen by
moneyness and side; otherwise it evaluates
`(log(spot/strike) + (ir + sigma^2/2) tau) / (sigma sqrt(tau))`.  That
transcendental expression is abstracted by the oracle `finFormula` (applied to
`sigma` and `tau`); the degenerate branch, which is the subject of the verified
property, never consults it. -/
def bsmD1 (finFormula : ℚ → ℚ → ℚ) (right : OptionRight)
    (strikePrice spotPrice sigma tau : ℚ) : XReal :=
  if tau = 0 ∨ sigma = 0 then
    let sign : ℤ := 2 * (if right = OptionRight.Call then 1 else 0) - 1
    if isITM right strikePrice spotPrice then XReal.signTimesInf sign
    else XReal.signTimesNegInf sign
  else
    XReal.fin (finFormula sigma tau)

/-- The standard normal CDF on `XReal`: `1` at `+∞`, `0` at `-∞`, and an oracle
value (`finCdf`) at finite arguments. -/
def normCdf (finCdf : ℚ → ℚ) : XReal → ℚ
  | XReal.posInf => 1
  | XReal.negInf => 0
  | XReal.fin x => finCdf x

/-- BSM.bsmDelta (`Library/BSMLibrary.py`, lines 314-330), taking `d1` as input
as the source does when a precomputed `d1` is supplied:
`norm.cdf(d1)` for a Call, `-norm.cdf(-d1)` for a Put. -/
def bsmDelta (finCdf : ℚ → ℚ) (right : OptionRight) (d1 : XReal) : ℚ :=
  if right = OptionRight.Call then normCdf finCdf d1
  else -(normCdf finCdf (XReal.neg d1))

/-- Outcome of one `scipy.optimize.root_scalar` call: either an exception
escaped the call, or it returned a solution object carrying a `converged` flag
and a `root`. -/
inductive SolverOutcome where
  | raised
  | result (converged : Bool) (root : ℚ)
deriving DecidableEq, Repr

/-- BSM.bsmIV (`Library/BSMLibrary.py`, lines 255-312), its exception-handling
and fallback control flow.  The two numeric solvers are oracles: `halley x0` is
the outcome of the Halley `root_scalar` call started at `x0`, and
`bracketSearch (lo, hi)` is the outcome of the bracketed `root_scalar` call on
the interval `[lo, hi]`.  `cachedIV` models the optional
`contract.BSMImpliedVolatility` attribute.  Returns the pair
`(IV, converged)` of the local variables at the end of the function (the
source returns `IV` and uses `converged` internally); the function is total,
so no exception from either solver ever escapes. -/
def bsmIV (halley : ℚ → SolverOutcome) (bracketSearch : ℚ × ℚ → SolverOutcome)
    (cachedIV : Option ℚ) : ℚ × Bool :=
  let x0 : ℚ := match cachedIV with
    | some v => v
    | none => 1/10
  let firstTry : ℚ × Bool := match halley x0 with
    | SolverOutcome.raised => (0, false)
    | SolverOutcome.result c r => (if c then r else 0, c)
  if firstTry.2 then firstTry
  else
    match bracketSearch (1/10000, 2) with
    | SolverOutcome.raised => (0, false)
    | SolverOutcome.result c r => (if c then r else 0, c)

end BSM

namespace OptionStrategyOrder

/-- The fields of a QuantConnect option contract consulted by `getPayoff` and
`computeOrderMaxLoss`. -/
structure PayoffContract where
  Right : OptionRight
  Strike : ℚ
  UnderlyingLastPrice : ℚ
deriving DecidableEq, Repr, Inhabited

/-- getPayoff (`Library/OptionStrategyOrder.py`, lines 398-416): aggregate
intrinsic payoff of the legs at a given spot price,
`sum_n sides[n] * max(0, direction_n * (spot - strike_n))` with
`direction = +1` for a Call and `-1` for a Put. -/
def getPayoff (spotPrice : ℚ) (contracts : List PayoffContract) (sides : List ℤ) : ℚ :=
  if contracts.length = 0 then 0
  else
    (contracts.zip sides).foldl
      (fun payoff cs =>
        let direction : ℤ := 2 * (if cs.1.Right = OptionRight.Call then 1 else 0) - 1
        payoff + (cs.2 : ℚ) * max 0 ((direction : ℚ) * (spotPrice - cs.1.Strike)))
      0

/-- computeOrderMaxLoss (`Library/OptionStrategyOrder.py`, lines 418-436):
minimum of the aggregate payoff at spot 0, at every strike and at ten times the
underlying price, capped above at 0. -/
def computeOrderMaxLoss (contracts : List PayoffContract) (sides : List ℤ) : ℚ :=
  if contracts.length = 0 then 0
  else
    let UnderlyingLastPrice := (contracts.headI).UnderlyingLastPrice
    let maxLoss := getPayoff 0 contracts sides
    let maxLoss := contracts.foldl
      (fun m c => min m (getPayoff c.Strike contracts sides)) maxLoss
    let maxLoss := min maxLoss (getPayoff (UnderlyingLastPrice * 10) contracts sides)
    min 0 maxLoss

/-- The spot prices at which `computeOrderMaxLoss` samples the aggregate payoff:
0, every strike, and ten times the underlying last price of the first leg. -/
def maxLossEvalPoints (contracts : List PayoffContract) : List ℚ :=
  0 :: contracts.map (fun c => c.Strike) ++ [(contracts.headI).UnderlyingLastPrice * 10]

/-- getOrderDetails (`Library/OptionStrategyOrder.py`, lines 289-341), the
pricing / sizing tail of the function, starting from the raw aggregate
mid-price accumulated over the legs (line 284).  Returns `none` on the two
early exits (mid-price or quantity-sizing price indistinguishable from zero)
and otherwise the rounded order mid-price, the rounded limit-order price and
the sized quantity. -/
def getOrderDetailsPricing (useLimitOrders : Bool) (limitOrderAbsolutePrice : Option ℚ)
    (limitOrderRelativePriceAdjustment slippage : ℚ) (sides : List ℤ)
    (marginRemaining : ℚ) (targetPremium : Option ℚ) (maxOrderQuantity : ℤ)
    (sell : Bool) (orderMidPriceRaw : ℚ) : Option (ℚ × ℚ × ℤ) :=
  if |orderMidPriceRaw| < 1/100000 then none
  else
    let limitPriceRaw : ℚ := match limitOrderAbsolutePrice with
      | some absPrice => absPrice
      | none => orderMidPriceRaw * (1 + limitOrderRelativePriceAdjustment)
    let totalSlippage : ℚ := ((sides.map (fun s => (s.natAbs : ℚ))).sum) * slippage
    let limitPriceRaw := limitPriceRaw - totalSlippage
    let orderMidPrice := pythonRound2 orderMidPriceRaw
    let limitOrderPrice := pythonRound2 limitPriceRaw
    let qtyMidPrice := if useLimitOrders then limitOrderPrice else orderMidPrice
    if |qtyMidPrice| ≤ 1/100000 then none
    else
      let orderQuantity : ℤ := match targetPremium with
        | none => maxOrderQuantity
        | some tp0 =>
          let tp := min marginRemaining tp0
          let q := |tp / (qtyMidPrice * 100)|
          if sell then max 1 (pythonRound q) else ⌊q⌋
      some (orderMidPrice, limitOrderPrice, orderQuantity)

end OptionStrategyOrder

namespace OptionStrategy

/-- getOrderDetails (`Library/OptionStrategy.py`, lines 251-272), the quantity
sizing of the legacy strategy class.  There `targetPremium` is read as
`parameters["targetPremium"] or 0.0`, so a missing target premium becomes `0.0`
for credit orders, while the debit branch separately tests the raw parameter
against `None`.  Takes the already-rounded order mid-price and limit price and
returns `none` on the zero-price early exit at line 260. -/
def getOrderDetailsQuantityLegacy (useLimitOrders : Bool)
    (targetPremiumParam : Option ℚ) (maxOrderQuantityParam : ℤ) (sell : Bool)
    (orderMidPrice limitOrderPrice : ℚ) : Option ℤ :=
  let targetPremium : ℚ := match targetPremiumParam with
    | some tp => tp
    | none => 0
  let qtyMidPrice := if useLimitOrders then limitOrderPrice else orderMidPrice
  if |qtyMidPrice| ≤ 1/100000 then none
  else
    some (if sell then max 1 (pythonRound |targetPremium / (qtyMidPrice * 100)|)
          else match targetPremiumParam with
            | none => maxOrderQuantityParam
            | some _ => ⌊|targetPremium / (qtyMidPrice * 100)|⌋)

/-- managePositions (`Library/OptionStrategy.py`, lines 946-965): the stop-loss
trigger evaluated for a fully-filled open position.  `openPremium` is the
per-share premium stored at open-fill time, `maxLoss` the per-quantity
worst-case loss computed by `computeOrderMaxLoss` at order creation,
`positionPnL` the current per-share P&L of the position. -/
def stopLossFlg (stopLossMultiplier openPremium maxLoss : ℚ) (positionQuantity : ℤ)
    (positionPnL : ℚ) : Bool :=
  let stopLoss := -|openPremium| * stopLossMultiplier
  let netMaxLoss := maxLoss * positionQuantity + openPremium
  decide (netMaxLoss ≤ positionPnL ∧ positionPnL ≤ stopLoss)

end OptionStrategy

namespace StrategyBuilder

/-- Python `round((l + r) / 2.0)` for naturals: the quotient is either exact or
an exact half, so float `round` is banker's rounding (half to even). -/
def pyRoundHalf (s : ℕ) : ℕ :=
  if s % 2 = 0 then s / 2
  else if (s / 2) % 2 = 0 then s / 2 else s / 2 + 1

/-- getDeltaContract (`Library/StrategyBuilder.py`, lines 133-154), the
bisection loop.  `deltas` are the (cached) `BSMGreeks.Delta` values of the
contract list, indexed like the list; the loop narrows `[leftIdx, rightIdx]`
around the contract whose absolute delta is closest to `delta/100`, moving the
side dictated by the option type, and stops when the interval has at most two
contracts.  Returns the final `(leftIdx, rightIdx)`. -/
def bisectDelta (right : OptionRight) (deltas : List ℚ) (delta : ℚ)
    (leftIdx rightIdx : ℕ) : ℕ × ℕ :=
  if _h : rightIdx - leftIdx > 1 then
    let middleIdx := pyRoundHalf (leftIdx + rightIdx)
    let contractDelta := deltas.getD middleIdx 0
    if |contractDelta| > delta / 100 then
      match right with
      | OptionRight.Call => bisectDelta right deltas delta middleIdx rightIdx
      | OptionRight.Put => bisectDelta right deltas delta leftIdx middleIdx
    else
      match right with
      | OptionRight.Call => bisectDelta right deltas delta leftIdx middleIdx
      | OptionRight.Put => bisectDelta right deltas delta middleIdx rightIdx
  else (leftIdx, rightIdx)
termination_by rightIdx - leftIdx
decreasing_by
  all_goals simp only [pyRoundHalf]
  all_goals split
  any_goals omega
  all_goals split <;> omega

/-- getDeltaContract (`Library/StrategyBuilder.py`, lines 99-162).  A contract
is represented by its index into `deltas`; the return value is the index of the
selected contract (`none` models the `return` with no value when no target
delta is given or the list is empty).  The boundary short-circuit (lines
113-130) returns a boundary index without entering the bisection; otherwise the
bisection runs and the closer of the two remaining contracts is picked (the
source's stable two-element `sorted` keeps the left one on ties). -/
def getDeltaContract (right : OptionRight) (deltas : List ℚ) (delta : Option ℚ) :
    Option ℕ :=
  match delta with
  | none => none
  | some dv =>
    if deltas.isEmpty then none
    else
      let leftIdx : ℕ := 0
      let rightIdx : ℕ := deltas.length - 1
      let dLeft := |deltas.getD leftIdx 0|
      let dRight := |deltas.getD rightIdx 0|
      let boundary : Option ℕ :=
        match right with
        | OptionRight.Call =>
          if dRight > dv / 100 then some rightIdx
          else if dLeft < dv / 100 then some leftIdx
          else none
        | OptionRight.Put =>
          if dLeft > dv / 100 then some leftIdx
          else if dRight < dv / 100 then some rightIdx
          else none
      match boundary with
      | some i => some i
      | none =>
        let lr := bisectDelta right deltas dv leftIdx rightIdx
        let keyL := abs (|deltas.getD lr.1 0| - dv / 100)
        let keyR := abs (|deltas.getD lr.2 0| - dv / 100)
        if keyL ≤ keyR then some lr.1 else some lr.2

end StrategyBuilder

namespace OptionStrategy

/-- The two phases of a position, the `"open"` / `"close"` strings of the source. -/
inductive OrderPhase where
  | phOpen
  | phClose
deriving DecidableEq, Repr

/-- One entry of `workingOrders[orderTag]`: the per-leg fill-tracking record
created by `openPosition` (`{"orderId":…, "expiryStr":…, "orderType":…, "fills": 0}`). -/
structure ContractInfo where
  orderId : ℕ
  expiryStr : String
  orderType : OrderPhase
  fills : ℕ
deriving DecidableEq, Repr

/-- The `"open"` / `"close"` sub-dictionary of a position (`getOrderDetails`,
`Library/OptionStrategyOrder.py` lines 371-392): broker orders seen so far (by
event order id), cumulative fills, the filled and stale-price flags, the
limit-order deadline and prices, and the per-share `premium` recorded when the
open phase completes. -/
structure PhaseState where
  orders : List ℕ
  fills : ℕ
  filled : Bool
  stalePrice : Bool
  limitOrderExpiryDttm : ℚ
  orderMidPrice : ℚ
  limitOrderPrice : ℚ
  bidAskSpread : ℚ
  premium : ℚ
deriving DecidableEq, Repr

/-- The order dictionary produced by `getOrderDetails` with the fields the
lifecycle code reads.  Contracts are represented by their symbols;
`contractSide` is the symbol-to-signed-side dictionary (insertion order kept). -/
structure OrderRec where
  strategyId : String
  expiryStr : String
  contracts : List String
  contractSide : List (String × ℤ)
  orderQuantity : ℕ
  maxOrderQuantity : ℕ
  creditStrategy : Bool
  openPh : PhaseState
  closePh : PhaseState
deriving DecidableEq, Repr

/-- An entry of `self.openPositions`: the accepted order dictionary after
`openPosition` added `orderId` and `orderTag`. -/
structure PositionRec where
  orderId : ℕ
  orderTag : String
  strategyId : String
  expiryStr : String
  contracts : List String
  contractSide : List (String × ℤ)
  orderQuantity : ℕ
  maxOrderQuantity : ℕ
  creditStrategy : Bool
  openPh : PhaseState
  closePh : PhaseState
deriving DecidableEq, Repr

/-- The reporting entry `context.allPositions[orderId]`, restricted to the
fields the lifecycle code writes. -/
structure AllPosRec where
  openPremium : ℚ
  closePremium : ℚ
  PnL : ℚ
  openStalePrice : Bool
  closeStalePrice : Bool
  orderCancelled : Bool
deriving DecidableEq, Repr

/-- An entry of `self.limitOrders` as created by `openPosition`
(`Library/OptionStrategyCore.py`, lines 385-393). -/
structure LimitOrderRec where
  orderId : ℕ
  orderType : OrderPhase
  orderSides : List ℤ
  orderQuantity : ℕ
  limitOrderPrice : ℚ
deriving DecidableEq, Repr

/-- A `context.MarketOrder(symbol, quantity, tag)` submission. -/
structure MarketOrderReq where
  Symbol : String
  quantity : ℤ
  tag : String
deriving DecidableEq, Repr

/-- The mutable tracking state owned by the strategy object: the four
dictionaries (`workingOrders`, `openPositions`, `limitOrders`,
`context.allPositions`) plus the active-position counter and the static order
counter behind `getNextOrderId`. -/
structure LifecycleState where
  workingOrders : String → Option (String → Option ContractInfo)
  openPositions : String → Option PositionRec
  limitOrders : String → Option LimitOrderRec
  allPositions : ℕ → Option AllPosRec
  currentActivePositions : ℤ
  orderCount : ℕ

/-- QuantConnect `OrderStatus`, collapsed to the cases the handler distinguishes. -/
inductive FillStatus where
  | Filled
  | PartiallyFilled
  | Other
deriving DecidableEq, Repr

/-- An order event as consumed by `OnOrderEvent`.  `Tag` is the order tag with
any stale-price warning suffix already stripped (line 554); `hasWarning` records
whether such a suffix was present (line 580). -/
structure OrderEvent where
  Status : FillStatus
  OrderId : ℕ
  Symbol : String
  Tag : String
  hasWarning : Bool
  FillQuantity : ℤ
  FillPrice : ℚ
deriving DecidableEq, Repr

/-- Select the phase sub-record of a position. -/
def phaseGet (pos : PositionRec) : OrderPhase → PhaseState
  | OrderPhase.phOpen => pos.openPh
  | OrderPhase.phClose => pos.closePh

/-- Replace the phase sub-record of a position. -/
def phaseSet (pos : PositionRec) : OrderPhase → PhaseState → PositionRec
  | OrderPhase.phOpen, ph => { pos with openPh := ph }
  | OrderPhase.phClose, ph => { pos with closePh := ph }

/-- `Nlegs = sum(map(abs, contractSides))` (line 577): leg count weighted by
side magnitude. -/
def Nlegs (pos : PositionRec) : ℕ :=
  (pos.contractSide.map (fun cs => cs.2.natAbs)).sum

/-- OnOrderEvent, lines 580-583: on a stale-price warning, mark the phase
record and the reporting record. -/
def staleUpdate (hasWarning : Bool) (phase : OrderPhase) (phaseRec : PhaseState)
    (allPos : AllPosRec) : PhaseState × AllPosRec :=
  if hasWarning then
    ({ phaseRec with stalePrice := true },
     match phase with
     | OrderPhase.phOpen => { allPos with openStalePrice := true }
     | OrderPhase.phClose => { allPos with closeStalePrice := true })
  else (phaseRec, allPos)

/-- OnOrderEvent, lines 585-587: append the broker order to the phase's order
list on its first fill. -/
def appendFirstFillOrder (orderEventId : ℕ) (ciFills : ℕ) (phaseRec : PhaseState) :
    PhaseState :=
  if ciFills = 0 then { phaseRec with orders := phaseRec.orders ++ [orderEventId] }
  else phaseRec

/-- OnOrderEvent, lines 589-594: add the absolute fill quantity to the leg's
fill counter, removing the leg entry from the tag's working orders once it
reaches the position quantity. -/
def legFillUpdate (sym : String) (q : ℕ) (positionQuantity : ℕ)
    (workingOrder : String → Option ContractInfo) (contractInfo : ContractInfo) :
    String → Option ContractInfo :=
  let contractInfo2 := { contractInfo with fills := contractInfo.fills + q }
  if contractInfo2.fills = positionQuantity then upd workingOrder sym none
  else upd workingOrder sym (some contractInfo2)

/-- OnOrderEvent, line 597: add the absolute fill quantity to the phase's fill
counter. -/
def phaseFillUpdate (q : ℕ) (phaseRec : PhaseState) : PhaseState :=
  { phaseRec with fills := phaseRec.fills + q }

/-- OnOrderEvent, lines 598-606: accumulate the phase premium by minus
`fillQuantity * fillPrice * 100`. -/
def premiumUpdate (phase : OrderPhase) (transactionAmt : ℚ) (allPos : AllPosRec) :
    AllPosRec :=
  match phase with
  | OrderPhase.phOpen => { allPos with openPremium := allPos.openPremium - transactionAmt }
  | OrderPhase.phClose => { allPos with closePremium := allPos.closePremium - transactionAmt }

/-- OnOrderEvent, lines 608-621: when the phase's cumulative fills reach the
weighted leg count times the position quantity, mark the phase filled, and for
the open phase store the per-share premium. -/
def completionMark (phase : OrderPhase) (completed : Bool) (openPremiumNow : ℚ)
    (phaseRec : PhaseState) : PhaseState :=
  let pr := if completed then { phaseRec with filled := true } else phaseRec
  if completed ∧ phase = OrderPhase.phOpen then { pr with premium := openPremiumNow / 100 }
  else pr

/-- OnOrderEvent (`Library/OptionStrategy.py`, lines 532-640).  Pure transcription
of the handler as a state transformer, staged through the helper functions
above; charting/statistics side effects (`statsUpdated`, `updateStats`,
timestamps and mid-price reporting fields) are outside the modelled state.
Where the source would raise `KeyError` (symbol not in the tag's working
orders, or order id not in `allPositions`) the model returns the state
unchanged; the verified properties assume those lookups succeed, as they do for
events generated by this strategy's own orders. -/
def OnOrderEvent (s : LifecycleState) (e : OrderEvent) : LifecycleState :=
  if ¬(e.Status = FillStatus.Filled ∨ e.Status = FillStatus.PartiallyFilled) then s
  else
    match s.workingOrders e.Tag with
    | none => s
    | some workingOrder =>
      match workingOrder e.Symbol with
      | none => s
      | some contractInfo =>
        match s.openPositions contractInfo.expiryStr with
        | none => s
        | some openPosition =>
          match s.allPositions contractInfo.orderId with
          | none => s
          | some allPos0 =>
            let positionQuantity := openPosition.orderQuantity
            let legCount := Nlegs openPosition
            let phase := contractInfo.orderType
            let q := e.FillQuantity.natAbs
            let sa := staleUpdate e.hasWarning phase (phaseGet openPosition phase) allPos0
            let phaseRec2 := appendFirstFillOrder e.OrderId contractInfo.fills sa.1
            let workingOrder2 := legFillUpdate e.Symbol q positionQuantity workingOrder contractInfo
            let phaseRec3 := phaseFillUpdate q phaseRec2
            let allPos2 := premiumUpdate phase ((e.FillQuantity : ℚ) * e.FillPrice * 100) sa.2
            let completed := decide (phaseRec3.fills = legCount * positionQuantity)
            let phaseRec4 := completionMark phase completed allPos2.openPremium phaseRec3
            let activeDelta : ℤ :=
              if completed = true ∧ phase = OrderPhase.phOpen then 1 else 0
            let openPosition2 := phaseSet openPosition phase phaseRec4
            if phase = OrderPhase.phClose ∧ openPosition2.openPh.filled = true
                ∧ openPosition2.closePh.filled = true then
              { workingOrders := upd s.workingOrders e.Tag (some workingOrder2)
                , openPositions := upd s.openPositions contractInfo.expiryStr none
                , limitOrders := s.limitOrders
                , allPositions := upd s.allPositions contractInfo.orderId
                    (some { allPos2 with PnL := allPos2.openPremium + allPos2.closePremium })
                , currentActivePositions := s.currentActivePositions + activeDelta - 1
                , orderCount := s.orderCount }
            else
              { workingOrders := upd s.workingOrders e.Tag (some workingOrder2)
                , openPositions := upd s.openPositions contractInfo.expiryStr (some openPosition2)
                , limitOrders := s.limitOrders
                , allPositions := upd s.allPositions contractInfo.orderId (some allPos2)
                , currentActivePositions := s.currentActivePositions + activeDelta
                , orderCount := s.orderCount }

/-- managePositions (`Library/OptionStrategy.py`, lines 986-1008): the
per-position body for a position whose open phase is not yet filled.  The
caller (the loop at line 893) only reaches this code when
`position["open"]["filled"]` is false.  A partial fill (line 988) is only
logged; with zero fills and a passed deadline the pending limit order, the
position and its working orders are removed and the order is marked cancelled
(dropped from `allPositions` unless `includeCancelledOrders`).  No market order
is submitted anywhere in this branch, hence the second component of the result
is always `[]`. -/
def manageUnfilledPosition (includeCancelledOrders : Bool) (now : ℚ)
    (s : LifecycleState) (expiryStr : String) : LifecycleState × List MarketOrderReq :=
  match s.openPositions expiryStr with
  | none => (s, [])
  | some position =>
    if position.openPh.fills > 0 then (s, [])
    else if now > position.openPh.limitOrderExpiryDttm then
      let s1 := { s with limitOrders := upd s.limitOrders position.orderTag none }
      let s2 := { s1 with openPositions := upd s1.openPositions expiryStr none }
      let s3 := { s2 with workingOrders := upd s2.workingOrders position.orderTag (some fun _ => none) }
      let s4 :=
        match s3.allPositions position.orderId with
        | none => s3
        | some rec0 =>
          { s3 with
            allPositions := upd s3.allPositions position.orderId
              (if includeCancelledOrders then some { rec0 with orderCancelled := true } else none) }
      (s4, [])
    else (s, [])

/-- `np.sign` on a rational. -/
def npSign (x : ℚ) : ℤ :=
  if 0 < x then 1 else if x < 0 then -1 else 0

/-- Dictionary read `contractSide[symbol]` (assoc-list lookup; the source's
`KeyError` case cannot occur because `openPosition` only looks up symbols of
the order's own contracts). -/
def lookupSide (sides : List (String × ℤ)) (sym : String) : ℤ :=
  ((sides.find? fun p => p.1 = sym).map Prod.snd).getD 0

/-- The strategy parameters consulted by `openPosition`. -/
structure OpenPositionParams where
  useLimitOrders : Bool
  validateQuantity : Bool
  validateBidAskSpread : Bool
  bidAskSpreadRatio : ℚ
  allowMultipleEntriesPerExpiry : Bool
deriving DecidableEq, Repr

/-- openPosition (`Library/OptionStrategyCore.py`, lines 155-396).  The
validation prefix (lines 211-222) silently rejects the fully-built order;
otherwise a fresh order id and tag are drawn, the reporting record, position
record and per-leg working orders are inserted, market orders are submitted for
each leg with a non-zero side when market orders are configured, and a pending
limit order is recorded when limit orders are configured.  Reporting-only
fields of the position dictionary (per-leg strikes/Greeks columns, tracking)
are outside the modelled state.  Returns the new state and the submitted
market orders. -/
def openPosition (params : OpenPositionParams) (s : LifecycleState)
    (orderOpt : Option OrderRec) : LifecycleState × List MarketOrderReq :=
  match orderOpt with
  | none => (s, [])
  | some order =>
    if order.contracts.length = 0 then (s, [])
    else
      let useLimitOrders := params.useLimitOrders
      let useMarketOrders := ¬useLimitOrders
      let orderQuantity := order.orderQuantity
      let bidAskSpread := order.openPh.bidAskSpread
      let orderMidPrice := order.openPh.orderMidPrice
      if orderQuantity = 0
          ∨ npSign orderMidPrice ≠ 2 * (if order.creditStrategy then 1 else 0) - 1
          ∨ (params.validateQuantity ∧ orderQuantity > order.maxOrderQuantity)
          ∨ (useMarketOrders ∧ params.validateBidAskSpread
              ∧ |bidAskSpread| > params.bidAskSpreadRatio * |orderMidPrice|) then
        (s, [])
      else
        let orderId := s.orderCount + 1
        let orderTag := order.strategyId ++ "-" ++ toString orderId
        let positionKey :=
          if params.allowMultipleEntriesPerExpiry then toString orderId else order.expiryStr
        let position : PositionRec :=
          { orderId := orderId
            , orderTag := orderTag
            , strategyId := order.strategyId
            , expiryStr := order.expiryStr
            , contracts := order.contracts
            , contractSide := order.contractSide
            , orderQuantity := order.orderQuantity
            , maxOrderQuantity := order.maxOrderQuantity
            , creditStrategy := order.creditStrategy
            , openPh := order.openPh
            , closePh := order.closePh }
        let allRec : AllPosRec :=
          { openPremium := 0, closePremium := 0, PnL := 0
            , openStalePrice := false, closeStalePrice := false, orderCancelled := false }
        let workingOrder : String → Option ContractInfo := fun sym =>
          if order.contracts.contains sym then
            some { orderId := orderId, expiryStr := order.expiryStr
                   , orderType := OrderPhase.phOpen, fills := 0 }
          else none
        let submitted : List MarketOrderReq :=
          if useMarketOrders then
            order.contracts.filterMap fun sym =>
              let orderSide := lookupSide order.contractSide sym
              if orderSide ≠ 0 then
                some { Symbol := sym, quantity := orderSide * (orderQuantity : ℤ), tag := orderTag }
              else none
          else []
        let limitOrders2 :=
          if useLimitOrders then
            upd s.limitOrders orderTag
              (some { orderId := orderId
                      , orderType := OrderPhase.phOpen
                      , orderSides := order.contracts.map (lookupSide order.contractSide)
                      , orderQuantity := orderQuantity
                      , limitOrderPrice := order.openPh.limitOrderPrice })
          else s.limitOrders
        ({ workingOrders := upd s.workingOrders orderTag (some workingOrder)
           , openPositions := upd s.openPositions positionKey (some position)
           , limitOrders := limitOrders2
           , allPositions := upd s.allPositions orderId (some allRec)
           , currentActivePositions := s.currentActivePositions
           , orderCount := orderId }, submitted)

end OptionStrategy


namespace OptionStrategy

/-- A phase sub-record with empty counters, as `getOrderDetails` creates it;
used to instantiate the lifecycle theorems on a concrete state. -/
def samplePhase : PhaseState :=
  { orders := [], fills := 0, filled := false, stalePrice := false
    , limitOrderExpiryDttm := 0, orderMidPrice := 0, limitOrderPrice := 0
    , bidAskSpread := 0, premium := 0 }

/-- A per-leg working-order record as `openPosition` creates it (concrete instance). -/
def sampleContractInfo : ContractInfo :=
  { orderId := 1, expiryStr := "e", orderType := OrderPhase.phOpen, fills := 0 }

/-- The working orders of the sample position: one leg with symbol `"A"`. -/
def sampleWorkingOrder : String → Option ContractInfo :=
  fun sym => if sym = "A" then some sampleContractInfo else none

/-- A one-leg short position of quantity 2 (concrete instance). -/
def samplePosition : PositionRec :=
  { orderId := 1, orderTag := "SP-1", strategyId := "SP", expiryStr := "e"
    , contracts := ["A"], contractSide := [("A", -1)], orderQuantity := 2
    , maxOrderQuantity := 5, creditStrategy := true
    , openPh := samplePhase, closePh := samplePhase }

/-- The reporting record of the sample position at creation time. -/
def sampleAllPos : AllPosRec :=
  { openPremium := 0, closePremium := 0, PnL := 0
    , openStalePrice := false, closeStalePrice := false, orderCancelled := false }

/-- A lifecycle state holding exactly the sample position. -/
def sampleState : LifecycleState :=
  { workingOrders := fun t => if t = "SP-1" then some sampleWorkingOrder else none
    , openPositions := fun x => if x = "e" then some samplePosition else none
    , limitOrders := fun _ => none
    , allPositions := fun i => if i = 1 then some sampleAllPos else none
    , currentActivePositions := 0
    , orderCount := 1 }

/-- A partial fill event on the sample position: one of the two contracts of
the short leg fills at price 1.5. -/
def sampleEvent : OrderEvent :=
  { Status := FillStatus.PartiallyFilled, OrderId := 7, Symbol := "A", Tag := "SP-1"
    , hasWarning := false, FillQuantity := -1, FillPrice := 3/2 }

/-- Strategy parameters with all validations off (concrete instance). -/
def sampleParams : OpenPositionParams :=
  { useLimitOrders := false, validateQuantity := false, validateBidAskSpread := false
    , bidAskSpreadRatio := 0, allowMultipleEntriesPerExpiry := false }

/-- A fully built order with quantity zero (concrete instance exercising the
openPosition validation). -/
def sampleRejectedOrder : OrderRec :=
  { strategyId := "SP", expiryStr := "e", contracts := ["A"], contractSide := [("A", -1)]
    , orderQuantity := 0, maxOrderQuantity := 5, creditStrategy := true
    , openPh := samplePhase, closePh := samplePhase }

end OptionStrategy

/-- C10: for every contract and evaluation time (also at or after expiry), the
time-to-expiry `tau` computed by `optionTau` is non-negative, because the
days-to-expiry is clamped below at 0 before the division by the trading-day
count; hence the pricing and Greeks formulas never take the square root of a
negative number. -/
theorem optionTau_nonneg (expiry atTime tradingDays : ℚ) (h : 0 < tradingDays) :
    0 ≤ BSM.optionTau expiry atTime tradingDays := by
  unfold BSM.optionTau
  exact div_nonneg (le_trans (le_max_left 0 _) (le_max_left _ _)) (le_of_lt h)

/-- Witness for `optionTau_nonneg`: an evaluation time one million seconds past
the (shifted) expiry instant, with the default 365 trading days. -/
theorem optionTau_nonneg_witness :
    (0:ℚ) < 365 ∧ 0 ≤ BSM.optionTau 0 1000000 365 :=
  ⟨by norm_num, optionTau_nonneg 0 1000000 365 (by norm_num)⟩

/-- C2: for a fully-filled open position evaluated on a periodic tick, the
stop-loss flag is raised exactly when the position P&L lies in the closed
interval between the net maximum loss (`maxLoss * quantity + openPremium`) and
the stop-loss threshold (`-stopLossMultiplier * |openPremium|`); in particular
the stop-loss never triggers at a P&L below the worst-case loss bound. -/
theorem stopLossFlg_spec (stopLossMultiplier openPremium maxLoss : ℚ)
    (positionQuantity : ℤ) (positionPnL : ℚ) :
    (OptionStrategy.stopLossFlg stopLossMultiplier openPremium maxLoss positionQuantity
        positionPnL = true ↔
      maxLoss * positionQuantity + openPremium ≤ positionPnL ∧
        positionPnL ≤ -|openPremium| * stopLossMultiplier)
    ∧ (positionPnL < maxLoss * positionQuantity + openPremium →
        OptionStrategy.stopLossFlg stopLossMultiplier openPremium maxLoss positionQuantity
          positionPnL = false) := by
  constructor
  · simp [OptionStrategy.stopLossFlg]
  · intro hlt
    simp only [OptionStrategy.stopLossFlg, decide_eq_false_iff_not]
    rintro ⟨hle, -⟩
    exact absurd hle (not_le.mpr hlt)

/-- Witness for `stopLossFlg_spec`: worst-case loss −8 per share, premium 2,
multiplier 2, P&L −9 below the net worst-case bound −6: no stop-loss trigger. -/
theorem stopLossFlg_spec_witness :
    OptionStrategy.stopLossFlg 2 2 (-8) 1 (-9) = false :=
  (stopLossFlg_spec 2 2 (-8) 1 (-9)).2 (by norm_num)

/-- C9: when `tau = 0` or `sigma = 0`, `bsmD1` returns a signed infinity — `+∞`
for an in-the-money Call and `-∞` for an in-the-money Put, and the opposite
signed infinity out of the money — independently of the finite-branch formula
(so the division by `sigma * sqrt(tau)` is never executed and no NaN arises),
and the resulting delta collapses to the boundary value `1`, `-1` or `0`,
independently of the finite normal-CDF values. -/
theorem bsmD1_degenerate_spec (f g : ℚ → ℚ → ℚ) (cf cg : ℚ → ℚ)
    (right : OptionRight) (strikePrice spotPrice sigma tau : ℚ)
    (h : tau = 0 ∨ sigma = 0) :
    BSM.bsmD1 (fun a b => f a b) right strikePrice spotPrice sigma tau
        = BSM.bsmD1 (fun a b => g a b) right strikePrice spotPrice sigma tau
    ∧ BSM.bsmD1 (fun a b => f a b) right strikePrice spotPrice sigma tau
        = (if BSM.isITM right strikePrice spotPrice then
             (if right = OptionRight.Call then BSM.XReal.posInf else BSM.XReal.negInf)
           else
             (if right = OptionRight.Call then BSM.XReal.negInf else BSM.XReal.posInf))
    ∧ BSM.bsmDelta cf right
          (BSM.bsmD1 (fun a b => f a b) right strikePrice spotPrice sigma tau)
        = (if BSM.isITM right strikePrice spotPrice then
             (if right = OptionRight.Call then 1 else -1)
           else 0)
    ∧ BSM.bsmDelta cf right
          (BSM.bsmD1 (fun a b => f a b) right strikePrice spotPrice sigma tau)
        = BSM.bsmDelta cg right
            (BSM.bsmD1 (fun a b => f a b) right strikePrice spotPrice sigma tau) := by
  have hd : BSM.bsmD1 (fun a b => f a b) right strikePrice spotPrice sigma tau
      = (if BSM.isITM right strikePrice spotPrice then
           (if right = OptionRight.Call then BSM.XReal.posInf else BSM.XReal.negInf)
         else
           (if right = OptionRight.Call then BSM.XReal.negInf else BSM.XReal.posInf)) := by
    simp only [BSM.bsmD1, if_pos h]
    cases right with
    | Call =>
      by_cases hlt : strikePrice < spotPrice <;>
        simp [hlt, BSM.isITM, BSM.XReal.signTimesInf, BSM.XReal.signTimesNegInf]
    | Put =>
      by_cases hlt : spotPrice < strikePrice <;>
        simp [hlt, BSM.isITM, BSM.XReal.signTimesInf, BSM.XReal.signTimesNegInf]
  refine ⟨?_, hd, ?_, ?_⟩
  · simp only [BSM.bsmD1, if_pos h]
  · rw [hd]
    cases hitm : BSM.isITM right strikePrice spotPrice <;>
      cases right <;> simp [hitm, BSM.bsmDelta, BSM.normCdf, BSM.XReal.neg]
  · rw [hd]
    cases hitm : BSM.isITM right strikePrice spotPrice <;>
      cases right <;> simp [hitm, BSM.bsmDelta, BSM.normCdf, BSM.XReal.neg]

/-- Witness for `bsmD1_degenerate_spec`: an in-the-money Call (strike 100, spot
110) with `sigma = 0`, evaluated with concrete oracles, has delta 1. -/
theorem bsmD1_degenerate_spec_witness :
    BSM.bsmDelta (fun _ => 0) OptionRight.Call
      (BSM.bsmD1 (fun _ _ => 0) OptionRight.Call 100 110 0 1) = 1 := by
  have h := (bsmD1_degenerate_spec (fun _ _ => 0) (fun _ _ => 37) (fun _ => 0) (fun _ => 37)
    OptionRight.Call 100 110 0 1 (Or.inr rfl)).2.2.1
  rw [h]
  norm_num [BSM.isITM]

/-- C3: `bsmIV` first consults the Halley solver seeded at the cached IV (0.1
when none is cached) — its result depends on the Halley oracle only through
that seed; when the Halley call converges its root is returned as the IV with
no bracketed call consulted; when it raises or does not converge, the bracketed
search on `[0.0001, 2]` decides the result; and when both fail the result is
`(0, not converged)`.  The function is total, so no solver exception ever
propagates to the caller. -/
theorem bsmIV_spec (h1 h2 : ℚ → BSM.SolverOutcome) (b1 b2 : ℚ × ℚ → BSM.SolverOutcome)
    (cachedIV : Option ℚ) (r : ℚ) :
    (h1 (cachedIV.getD (1/10)) = h2 (cachedIV.getD (1/10)) →
      BSM.bsmIV h1 b1 cachedIV = BSM.bsmIV h2 b1 cachedIV)
    ∧ (h1 (cachedIV.getD (1/10)) = BSM.SolverOutcome.result true r →
      BSM.bsmIV h1 b1 cachedIV = (r, true)
        ∧ BSM.bsmIV h1 b1 cachedIV = BSM.bsmIV h1 b2 cachedIV)
    ∧ ((∀ c rr, h1 (cachedIV.getD (1/10)) = BSM.SolverOutcome.result c rr → c = false) →
      BSM.bsmIV h1 b1 cachedIV =
        match b1 (1/10000, 2) with
        | BSM.SolverOutcome.raised => ((0:ℚ), false)
        | BSM.SolverOutcome.result c2 r2 => (if c2 then r2 else 0, c2))
    ∧ ((∀ c rr, h1 (cachedIV.getD (1/10)) = BSM.SolverOutcome.result c rr → c = false) →
       (∀ c rr, b1 (1/10000, 2) = BSM.SolverOutcome.result c rr → c = false) →
      BSM.bsmIV h1 b1 cachedIV = (0, false)) := by
  have key : ∀ (hh : ℚ → BSM.SolverOutcome) (bb : ℚ × ℚ → BSM.SolverOutcome) (cc : Option ℚ),
      BSM.bsmIV hh bb cc =
        match hh (cc.getD (1/10)) with
        | BSM.SolverOutcome.raised =>
            (match bb (1/10000, 2) with
             | BSM.SolverOutcome.raised => ((0:ℚ), false)
             | BSM.SolverOutcome.result c2 r2 => (if c2 then r2 else 0, c2))
        | BSM.SolverOutcome.result c1 r1 =>
            if c1 then (r1, true)
            else
              (match bb (1/10000, 2) with
               | BSM.SolverOutcome.raised => ((0:ℚ), false)
               | BSM.SolverOutcome.result c2 r2 => (if c2 then r2 else 0, c2)) := by
    intro hh bb cc
    cases cc with
    | none =>
      simp only [BSM.bsmIV, Option.getD_none]
      cases hhh : hh (1/10) with
      | raised => simp [hhh]
      | result c1 r1 => cases c1 <;> simp [hhh]
    | some v =>
      simp only [BSM.bsmIV, Option.getD_some]
      cases hhh : hh v with
      | raised => simp [hhh]
      | result c1 r1 => cases c1 <;> simp [hhh]
  refine ⟨?_, ?_, ?_, ?_⟩
  · intro he
    rw [key, key, he]
  · intro he
    constructor
    · rw [key, he]
      simp
    · rw [key, key, he]
      simp
  · intro hf
    rw [key]
    cases hhh : h1 (cachedIV.getD (1/10)) with
    | raised => rfl
    | result c1 r1 =>
      have hc := hf c1 r1 hhh
      simp [hc]
  · intro hf hb
    rw [key]
    cases hhh : h1 (cachedIV.getD (1/10)) with
    | raised =>
      cases hbb : b1 (1/10000, 2) with
      | raised => rfl
      | result c2 r2 =>
        have hc := hb c2 r2 hbb
        simp [hc]
    | result c1 r1 =>
      have hc := hf c1 r1 hhh
      cases hbb : b1 (1/10000, 2) with
      | raised => simp [hc]
      | result c2 r2 =>
        have hc2 := hb c2 r2 hbb
        simp [hc, hc2]

/-- Witness for `bsmIV_spec`: the Halley oracle raises, the bracketed search
converges to 0.5, no IV is cached — the result is `(0.5, converged)` through
the fallback. -/
theorem bsmIV_spec_witness :
    BSM.bsmIV (fun _ => BSM.SolverOutcome.raised)
      (fun _ => BSM.SolverOutcome.result true (1/2)) none = (1/2, true) := by
  have h := (bsmIV_spec (fun _ => BSM.SolverOutcome.raised) (fun _ => BSM.SolverOutcome.raised)
      (fun _ => BSM.SolverOutcome.result true (1/2)) (fun _ => BSM.SolverOutcome.raised)
      none 0).2.2.1 (fun c rr hcr => BSM.SolverOutcome.noConfusion hcr)
  simpa using h

/-- Folding `min` never exceeds the initial accumulator. -/
theorem foldl_min_le_init (l : List ℚ) (a : ℚ) : l.foldl min a ≤ a := by
  induction l generalizing a with
  | nil => exact le_refl a
  | cons x xs ih => exact le_trans (ih (min a x)) (min_le_left a x)

/-- Folding `min` never exceeds any list element. -/
theorem foldl_min_le_mem {l : List ℚ} {b : ℚ} (hb : b ∈ l) (a : ℚ) :
    l.foldl min a ≤ b := by
  induction l generalizing a with
  | nil => cases hb
  | cons x xs ih =>
    rcases List.mem_cons.mp hb with hx | hxs
    · subst hx
      exact le_trans (foldl_min_le_init xs (min a b)) (min_le_right a b)
    · exact ih hxs (min a x)

/-- Folding `min` attains the initial accumulator or some list element. -/
theorem foldl_min_attained (l : List ℚ) (a : ℚ) :
    l.foldl min a = a ∨ l.foldl min a ∈ l := by
  induction l generalizing a with
  | nil => exact Or.inl rfl
  | cons x xs ih =>
    rcases ih (min a x) with h | h
    · rcases min_choice a x with hm | hm
      · exact Or.inl (by rw [List.foldl_cons, h, hm])
      · exact Or.inr (by rw [List.foldl_cons, h, hm]; exact List.mem_cons_self x xs)
    · exact Or.inr (List.mem_cons_of_mem x h)

/-- C5: for a non-empty leg list, `computeOrderMaxLoss` equals the minimum of
the aggregate payoff over the sampled spots (0, every strike, ten times the
underlying price) capped above at 0 — it is a lower bound of 0 and of every
sampled payoff and is attained at 0 or at one of them — hence it is never
positive; and for the fully hedged combination of one long and one short call
at the same strike it equals 0. -/
theorem computeOrderMaxLoss_spec (contracts : List OptionStrategyOrder.PayoffContract)
    (sides : List ℤ) (h : contracts ≠ []) :
    OptionStrategyOrder.computeOrderMaxLoss contracts sides ≤ 0
    ∧ (∀ p ∈ OptionStrategyOrder.maxLossEvalPoints contracts,
        OptionStrategyOrder.computeOrderMaxLoss contracts sides ≤
          OptionStrategyOrder.getPayoff p contracts sides)
    ∧ (OptionStrategyOrder.computeOrderMaxLoss contracts sides = 0
        ∨ OptionStrategyOrder.computeOrderMaxLoss contracts sides ∈
            (OptionStrategyOrder.maxLossEvalPoints contracts).map
              (fun p => OptionStrategyOrder.getPayoff p contracts sides))
    ∧ (∀ K U : ℚ,
        OptionStrategyOrder.computeOrderMaxLoss
          [{ Right := OptionRight.Call, Strike := K, UnderlyingLastPrice := U },
           { Right := OptionRight.Call, Strike := K, UnderlyingLastPrice := U }] [1, -1] = 0) := by
  have hlen : ¬ contracts.length = 0 := fun hh => h (List.length_eq_zero.mp hh)
  have hfold : ∀ a : ℚ,
      contracts.foldl (fun m c => min m (OptionStrategyOrder.getPayoff c.Strike contracts sides)) a
        = (contracts.map (fun c => OptionStrategyOrder.getPayoff c.Strike contracts sides)).foldl
            min a := by
    intro a
    rw [List.foldl_map]
  have hunf : OptionStrategyOrder.computeOrderMaxLoss contracts sides =
      min 0 (min ((contracts.map
            (fun c => OptionStrategyOrder.getPayoff c.Strike contracts sides)).foldl min
              (OptionStrategyOrder.getPayoff 0 contracts sides))
        (OptionStrategyOrder.getPayoff (contracts.headI.UnderlyingLastPrice * 10)
          contracts sides)) := by
    simp only [OptionStrategyOrder.computeOrderMaxLoss, if_neg hlen, hfold]
  refine ⟨?_, ?_, ?_, ?_⟩
  · rw [hunf]
    exact min_le_left _ _
  · intro p hp
    rw [hunf]
    unfold OptionStrategyOrder.maxLossEvalPoints at hp
    rcases List.mem_cons.mp hp with hp0 | hp1
    · subst hp0
      exact le_trans (min_le_right _ _)
        (le_trans (min_le_left _ _) (foldl_min_le_init _ _))
    · rcases List.mem_append.mp hp1 with hmap | hsing
      · rcases List.mem_map.mp hmap with ⟨c, hc, hcp⟩
        subst hcp
        exact le_trans (min_le_right _ _) (le_trans (min_le_left _ _)
          (foldl_min_le_mem (List.mem_map_of_mem _ hc) _))
      · have hpu := List.mem_singleton.mp hsing
        subst hpu
        exact le_trans (min_le_right _ _) (min_le_right _ _)
  · rcases min_choice (0:ℚ) (min ((contracts.map
        (fun c => OptionStrategyOrder.getPayoff c.Strike contracts sides)).foldl min
          (OptionStrategyOrder.getPayoff 0 contracts sides))
      (OptionStrategyOrder.getPayoff (contracts.headI.UnderlyingLastPrice * 10)
        contracts sides)) with hm | hm
    · left
      rw [hunf]
      exact hm
    · right
      rw [hunf, hm]
      rcases min_choice ((contracts.map
          (fun c => OptionStrategyOrder.getPayoff c.Strike contracts sides)).foldl min
            (OptionStrategyOrder.getPayoff 0 contracts sides))
        (OptionStrategyOrder.getPayoff (contracts.headI.UnderlyingLastPrice * 10)
          contracts sides) with hm2 | hm2
      · rw [hm2]
        rcases foldl_min_attained (contracts.map
            (fun c => OptionStrategyOrder.getPayoff c.Strike contracts sides))
            (OptionStrategyOrder.getPayoff 0 contracts sides) with hm3 | hm3
        · rw [hm3]
          exact List.mem_map_of_mem _ (List.mem_cons_self _ _)
        · rcases List.mem_map.mp hm3 with ⟨c, hc, hcp⟩
          rw [← hcp]
          have hmem : c.Strike ∈ OptionStrategyOrder.maxLossEvalPoints contracts :=
            List.mem_cons_of_mem _
              (List.mem_append.mpr (Or.inl (List.mem_map_of_mem _ hc)))
          exact List.mem_map_of_mem _ hmem
      · rw [hm2]
        have hmem : contracts.headI.UnderlyingLastPrice * 10 ∈
            OptionStrategyOrder.maxLossEvalPoints contracts :=
          List.mem_cons_of_mem _
            (List.mem_append.mpr (Or.inr (List.mem_singleton.mpr rfl)))
        exact List.mem_map_of_mem _ hmem
  · intro K U
    have hE : ∀ s : ℚ, OptionStrategyOrder.getPayoff s
        [{ Right := OptionRight.Call, Strike := K, UnderlyingLastPrice := U },
         { Right := OptionRight.Call, Strike := K, UnderlyingLastPrice := U }] [1, -1] = 0 := by
      intro s
      simp [OptionStrategyOrder.getPayoff]
    simp [OptionStrategyOrder.computeOrderMaxLoss, hE]

/-- Witness for `computeOrderMaxLoss_spec`: a one-leg short put at strike 100
never reports a positive worst-case loss. -/
theorem computeOrderMaxLoss_spec_witness :
    OptionStrategyOrder.computeOrderMaxLoss
      [{ Right := OptionRight.Put, Strike := 100, UnderlyingLastPrice := 100 }] [-1] ≤ 0 :=
  (computeOrderMaxLoss_spec
    [{ Right := OptionRight.Put, Strike := 100, UnderlyingLastPrice := 100 }] [-1]
    (by simp)).1

/-- C8 (amended): whenever `getOrderDetails` produces an order, the sized
quantity is `max(1, round(t/(price*100)))` for credit orders and
`floor(t/(price*100))` for debit orders — `price` being the rounded limit
order price when limit orders are configured and the rounded order mid-price
otherwise, and `t` the target premium clamped to the remaining margin; with no
target premium set the maximum order quantity is used.  (`round` is Python's
half-to-even rounding; the ratio is taken in absolute value as in the source.) -/
theorem getOrderDetailsPricing_quantity (useLimitOrders : Bool)
    (limitOrderAbsolutePrice : Option ℚ) (adj slippage : ℚ) (sides : List ℤ)
    (marginRemaining : ℚ) (targetPremium : Option ℚ) (maxOrderQuantity : ℤ)
    (sell : Bool) (orderMidPriceRaw omp lop : ℚ) (q : ℤ)
    (h : OptionStrategyOrder.getOrderDetailsPricing useLimitOrders limitOrderAbsolutePrice
          adj slippage sides marginRemaining targetPremium maxOrderQuantity sell
          orderMidPriceRaw = some (omp, lop, q)) :
    q = match targetPremium with
        | none => maxOrderQuantity
        | some tp0 =>
          let price := if useLimitOrders then lop else omp
          let t := min marginRemaining tp0
          if sell then max 1 (pythonRound |t / (price * 100)|)
          else ⌊|t / (price * 100)|⌋ := by
  cases useLimitOrders with
  | false =>
    unfold OptionStrategyOrder.getOrderDetailsPricing at h
    simp only [Bool.false_eq_true, if_false] at h
    split at h
    · cases h
    · split at h
      · cases h
      · have hsome := Option.some.inj h
        obtain ⟨homp, hrest⟩ := (Prod.mk.injEq _ _ _ _).mp hsome
        obtain ⟨hlop, hqty⟩ := (Prod.mk.injEq _ _ _ _).mp hrest
        subst homp
        subst hlop
        subst hqty
        cases targetPremium <;> rfl
  | true =>
    unfold OptionStrategyOrder.getOrderDetailsPricing at h
    simp only [if_true] at h
    split at h
    · cases h
    · split at h
      · cases h
      · have hsome := Option.some.inj h
        obtain ⟨homp, hrest⟩ := (Prod.mk.injEq _ _ _ _).mp hsome
        obtain ⟨hlop, hqty⟩ := (Prod.mk.injEq _ _ _ _).mp hrest
        subst homp
        subst hlop
        subst hqty
        cases targetPremium <;> rfl

/-- Witness for `getOrderDetailsPricing_quantity`: a one-leg credit order at
mid-price 2.00 with target premium 600 and ample margin sizes to
`max(1, round(600/200)) = 3`. -/
theorem getOrderDetailsPricing_quantity_witness :
    (3:ℤ) = max 1 (pythonRound |min 1000 (600:ℚ) / (2 * 100)|) := by
  have h := getOrderDetailsPricing_quantity false none 0 0 [-1] 1000 (some 600) 5 true
      2 2 2 3 ?_
  · simpa using h
  · unfold OptionStrategyOrder.getOrderDetailsPricing
    norm_num [pythonRound2, pythonRound]

/-- C8 counterexample: in the legacy `OptionStrategy.getOrderDetails`, a credit
order with no target premium set is sized to quantity 1, not to the configured
maximum order quantity (here 5): the claim as stated fails on that
implementation. -/
theorem getOrderDetailsQuantityLegacy_cex :
    OptionStrategy.getOrderDetailsQuantityLegacy false none 5 true 2 0 = some 1
    ∧ OptionStrategy.getOrderDetailsQuantityLegacy false none 5 true 2 0 ≠ some 5 := by
  have h : OptionStrategy.getOrderDetailsQuantityLegacy false none 5 true 2 0 = some 1 := by
    unfold OptionStrategy.getOrderDetailsQuantityLegacy
    norm_num [pythonRound]
  exact ⟨h, by rw [h]; simp⟩

/-- The Python-rounded midpoint of an interval of length at least 2 lies
strictly inside the interval. -/
theorem pyRoundHalf_bounds (l r : ℕ) (h : l + 2 ≤ r) :
    l + 1 ≤ StrategyBuilder.pyRoundHalf (l + r)
      ∧ StrategyBuilder.pyRoundHalf (l + r) + 1 ≤ r := by
  unfold StrategyBuilder.pyRoundHalf
  split
  · omega
  · split <;> omega

/-- The bisection loop started on a non-degenerate interval ends with two
adjacent indices inside the starting interval. -/
theorem bisectDelta_adjacent (right : OptionRight) (deltas : List ℚ) (delta : ℚ) :
    ∀ n l r, r - l = n → l < r →
      ∃ k, StrategyBuilder.bisectDelta right deltas delta l r = (k, k + 1)
        ∧ l ≤ k ∧ k + 1 ≤ r := by
  intro n
  induction n using Nat.strong_induction_on with
  | _ n ih =>
    intro l r hn hlr
    rw [StrategyBuilder.bisectDelta]
    split
    case isTrue hgt =>
      have hb := pyRoundHalf_bounds l r (by omega)
      simp only
      split
      case isTrue hd =>
        cases right with
        | Call =>
          obtain ⟨k, hk, h1, h2⟩ := ih (r - StrategyBuilder.pyRoundHalf (l + r))
            (by omega) (StrategyBuilder.pyRoundHalf (l + r)) r rfl (by omega)
          exact ⟨k, hk, by omega, h2⟩
        | Put =>
          obtain ⟨k, hk, h1, h2⟩ := ih (StrategyBuilder.pyRoundHalf (l + r) - l)
            (by omega) l (StrategyBuilder.pyRoundHalf (l + r)) rfl (by omega)
          exact ⟨k, hk, h1, by omega⟩
      case isFalse hd =>
        cases right with
        | Call =>
          obtain ⟨k, hk, h1, h2⟩ := ih (StrategyBuilder.pyRoundHalf (l + r) - l)
            (by omega) l (StrategyBuilder.pyRoundHalf (l + r)) rfl (by omega)
          exact ⟨k, hk, h1, by omega⟩
        | Put =>
          obtain ⟨k, hk, h1, h2⟩ := ih (r - StrategyBuilder.pyRoundHalf (l + r))
            (by omega) (StrategyBuilder.pyRoundHalf (l + r)) r rfl (by omega)
          exact ⟨k, hk, by omega, h2⟩
    case isFalse hgt =>
      refine ⟨l, ?_, le_refl l, by omega⟩
      have : r = l + 1 := by omega
      rw [this]

/-- C4 (amended): for a list of at least two same-type contracts sorted
ascending by strike (so that the boundary deltas are ordered by the type's
monotonicity), if the target delta is strictly below the delta range spanned by
the two boundary contracts the search returns the boundary contract with the
smaller absolute delta (the nearer one), if strictly above it returns the one
with the larger absolute delta, both without entering the bisection; otherwise
the bisection loop terminates with two adjacent indices and the search returns
whichever of the two has absolute delta closest to the target (the left one on
ties).  Contracts are represented by their cached delta list, target in
percent. -/
theorem getDeltaContract_spec (right : OptionRight) (deltas : List ℚ) (dv : ℚ)
    (hlen : 2 ≤ deltas.length)
    (hmono : if right = OptionRight.Call
        then |deltas.getD (deltas.length - 1) 0| ≤ |deltas.getD 0 0|
        else |deltas.getD 0 0| ≤ |deltas.getD (deltas.length - 1) 0|) :
    (dv / 100 < min |deltas.getD 0 0| |deltas.getD (deltas.length - 1) 0| →
      StrategyBuilder.getDeltaContract right deltas (some dv) =
          some (if right = OptionRight.Call then deltas.length - 1 else 0)
        ∧ abs (min |deltas.getD 0 0| |deltas.getD (deltas.length - 1) 0| - dv / 100)
            ≤ abs (max |deltas.getD 0 0| |deltas.getD (deltas.length - 1) 0| - dv / 100))
    ∧ (max |deltas.getD 0 0| |deltas.getD (deltas.length - 1) 0| < dv / 100 →
      StrategyBuilder.getDeltaContract right deltas (some dv) =
          some (if right = OptionRight.Call then 0 else deltas.length - 1)
        ∧ abs (max |deltas.getD 0 0| |deltas.getD (deltas.length - 1) 0| - dv / 100)
            ≤ abs (min |deltas.getD 0 0| |deltas.getD (deltas.length - 1) 0| - dv / 100))
    ∧ (min |deltas.getD 0 0| |deltas.getD (deltas.length - 1) 0| ≤ dv / 100 →
       dv / 100 ≤ max |deltas.getD 0 0| |deltas.getD (deltas.length - 1) 0| →
      ∃ k i, StrategyBuilder.bisectDelta right deltas dv 0 (deltas.length - 1) = (k, k + 1)
        ∧ k + 1 ≤ deltas.length - 1
        ∧ StrategyBuilder.getDeltaContract right deltas (some dv) = some i
        ∧ (i = k ∨ i = k + 1)
        ∧ abs (|deltas.getD i 0| - dv / 100) ≤ abs (|deltas.getD k 0| - dv / 100)
        ∧ abs (|deltas.getD i 0| - dv / 100) ≤ abs (|deltas.getD (k + 1) 0| - dv / 100)) := by
  have hne : deltas ≠ [] := by
    intro he
    rw [he] at hlen
    simp at hlen
  have hie : deltas.isEmpty = false := by
    simpa [List.isEmpty_iff] using hne
  cases right with
  | Call =>
    have hmono2 : |deltas.getD (deltas.length - 1) 0| ≤ |deltas.getD 0 0| := by
      simpa using hmono
    rw [min_eq_right hmono2, max_eq_left hmono2]
    refine ⟨?_, ?_, ?_⟩
    · intro hbelow
      refine ⟨?_, ?_⟩
      · unfold StrategyBuilder.getDeltaContract
        simp only [hie, Bool.false_eq_true, if_false]
        split_ifs <;> first | rfl | contradiction | (exfalso; linarith)
      · rw [abs_of_pos (show (0:ℚ) < |deltas.getD (deltas.length - 1) 0| - dv / 100 by
            linarith),
          abs_of_pos (show (0:ℚ) < |deltas.getD 0 0| - dv / 100 by linarith)]
        linarith
    · intro habove
      refine ⟨?_, ?_⟩
      · unfold StrategyBuilder.getDeltaContract
        simp only [hie, Bool.false_eq_true, if_false]
        split_ifs <;> first | rfl | contradiction | (exfalso; linarith)
      · rw [abs_of_neg (show |deltas.getD 0 0| - dv / 100 < (0:ℚ) by linarith),
          abs_of_neg (show |deltas.getD (deltas.length - 1) 0| - dv / 100 < (0:ℚ) by
            linarith)]
        linarith
    · intro hg1 hg2
      obtain ⟨k, hk, hk0, hk1⟩ := bisectDelta_adjacent OptionRight.Call deltas dv
        (deltas.length - 1) 0 (deltas.length - 1) (by omega) (by omega)
      have hgdc : StrategyBuilder.getDeltaContract OptionRight.Call deltas (some dv) =
          if abs (|deltas.getD k 0| - dv / 100) ≤ abs (|deltas.getD (k + 1) 0| - dv / 100)
          then some k else some (k + 1) := by
        unfold StrategyBuilder.getDeltaContract
        simp only [hie, Bool.false_eq_true, if_false]
        rw [hk]
        dsimp only
        split_ifs <;> first | rfl | contradiction | (exfalso; linarith)
      by_cases hcmp : abs (|deltas.getD k 0| - dv / 100)
          ≤ abs (|deltas.getD (k + 1) 0| - dv / 100)
      · exact ⟨k, k, hk, hk1, by rw [hgdc, if_pos hcmp], Or.inl rfl, le_refl _, hcmp⟩
      · exact ⟨k, k + 1, hk, hk1, by rw [hgdc, if_neg hcmp], Or.inr rfl,
          le_of_lt (not_le.mp hcmp), le_refl _⟩
  | Put =>
    have hmono2 : |deltas.getD 0 0| ≤ |deltas.getD (deltas.length - 1) 0| := by
      simpa using hmono
    rw [min_eq_left hmono2, max_eq_right hmono2]
    refine ⟨?_, ?_, ?_⟩
    · intro hbelow
      refine ⟨?_, ?_⟩
      · unfold StrategyBuilder.getDeltaContract
        simp only [hie, Bool.false_eq_true, if_false]
        split_ifs <;> first | rfl | contradiction | (exfalso; linarith)
      · rw [abs_of_pos (show (0:ℚ) < |deltas.getD 0 0| - dv / 100 by linarith),
          abs_of_pos (show (0:ℚ) < |deltas.getD (deltas.length - 1) 0| - dv / 100 by
            linarith)]
        linarith
    · intro habove
      refine ⟨?_, ?_⟩
      · unfold StrategyBuilder.getDeltaContract
        simp only [hie, Bool.false_eq_true, if_false]
        split_ifs <;> first | rfl | contradiction | (exfalso; linarith)
      · rw [abs_of_neg (show |deltas.getD (deltas.length - 1) 0| - dv / 100 < (0:ℚ) by
            linarith),
          abs_of_neg (show |deltas.getD 0 0| - dv / 100 < (0:ℚ) by linarith)]
        linarith
    · intro hg1 hg2
      obtain ⟨k, hk, hk0, hk1⟩ := bisectDelta_adjacent OptionRight.Put deltas dv
        (deltas.length - 1) 0 (deltas.length - 1) (by omega) (by omega)
      have hgdc : StrategyBuilder.getDeltaContract OptionRight.Put deltas (some dv) =
          if abs (|deltas.getD k 0| - dv / 100) ≤ abs (|deltas.getD (k + 1) 0| - dv / 100)
          then some k else some (k + 1) := by
        unfold StrategyBuilder.getDeltaContract
        simp only [hie, Bool.false_eq_true, if_false]
        rw [hk]
        dsimp only
        split_ifs <;> first | rfl | contradiction | (exfalso; linarith)
      by_cases hcmp : abs (|deltas.getD k 0| - dv / 100)
          ≤ abs (|deltas.getD (k + 1) 0| - dv / 100)
      · exact ⟨k, k, hk, hk1, by rw [hgdc, if_pos hcmp], Or.inl rfl, le_refl _, hcmp⟩
      · exact ⟨k, k + 1, hk, hk1, by rw [hgdc, if_neg hcmp], Or.inr rfl,
          le_of_lt (not_le.mp hcmp), le_refl _⟩

/-- Witness for `getDeltaContract_spec`: a two-contract Call chain with deltas
0.9 and 0.1 and target delta 50 (inside the range); the bisection interval is
already adjacent and the search picks one of the two contracts, the one with
delta distance at most the other's. -/
theorem getDeltaContract_spec_witness :
    ∃ k i, StrategyBuilder.bisectDelta OptionRight.Call [9/10, 1/10] 50 0 1 = (k, k + 1)
      ∧ k + 1 ≤ 1
      ∧ StrategyBuilder.getDeltaContract OptionRight.Call [9/10, 1/10] (some 50) = some i
      ∧ (i = k ∨ i = k + 1)
      ∧ abs (|[(9:ℚ)/10, 1/10].getD i 0| - 50 / 100)
          ≤ abs (|[(9:ℚ)/10, 1/10].getD k 0| - 50 / 100)
      ∧ abs (|[(9:ℚ)/10, 1/10].getD i 0| - 50 / 100)
          ≤ abs (|[(9:ℚ)/10, 1/10].getD (k + 1) 0| - 50 / 100) :=
  (getDeltaContract_spec OptionRight.Call [9/10, 1/10] 50 (by norm_num)
      (by norm_num [List.getD, abs_of_pos])).2.2
    (by norm_num [List.getD, abs_of_pos]) (by norm_num [List.getD, abs_of_pos])

/-- C4 counterexample: on the singleton chain with delta 0.3 and target delta
30 the target is not outside the boundary range, yet the bisection loop
terminates with the degenerate pair `(0, 0)` — not with two adjacent
contracts — and the search returns the only contract.  The claim as stated
over every non-empty list therefore fails for singleton chains. -/
theorem getDeltaContract_singleton_cex :
    StrategyBuilder.bisectDelta OptionRight.Call [3/10] 30 0 0 = (0, 0)
    ∧ (∀ k : ℕ, StrategyBuilder.bisectDelta OptionRight.Call [3/10] 30 0 0 ≠ (k, k + 1))
    ∧ StrategyBuilder.getDeltaContract OptionRight.Call [3/10] (some 30) = some 0
    ∧ ¬ ((30:ℚ) / 100 < min |[(3:ℚ)/10].getD 0 0| |[(3:ℚ)/10].getD 0 0|)
    ∧ ¬ (max |[(3:ℚ)/10].getD 0 0| |[(3:ℚ)/10].getD 0 0| < (30:ℚ) / 100) := by
  have hb : StrategyBuilder.bisectDelta OptionRight.Call [3/10] 30 0 0 = (0, 0) := by
    rw [StrategyBuilder.bisectDelta]
    norm_num
  refine ⟨hb, ?_, ?_, ?_, ?_⟩
  · intro k hk
    rw [hb] at hk
    have h2 := congrArg (fun p => p.2) hk
    dsimp at h2
    omega
  · unfold StrategyBuilder.getDeltaContract
    norm_num [List.getD, hb, abs_of_pos]
  · norm_num [List.getD, abs_of_pos]
  · norm_num [List.getD, abs_of_pos]

/-- Stale marking does not change the phase fill counter. -/
theorem staleUpdate_fst_fills (w : Bool) (ph : OptionStrategy.OrderPhase)
    (p : OptionStrategy.PhaseState) (a : OptionStrategy.AllPosRec) :
    (OptionStrategy.staleUpdate w ph p a).1.fills = p.fills := by
  cases w <;> rfl

/-- Stale marking does not change the phase filled flag. -/
theorem staleUpdate_fst_filled (w : Bool) (ph : OptionStrategy.OrderPhase)
    (p : OptionStrategy.PhaseState) (a : OptionStrategy.AllPosRec) :
    (OptionStrategy.staleUpdate w ph p a).1.filled = p.filled := by
  cases w <;> rfl

/-- Stale marking does not change the open premium. -/
theorem staleUpdate_snd_openPremium (w : Bool) (ph : OptionStrategy.OrderPhase)
    (p : OptionStrategy.PhaseState) (a : OptionStrategy.AllPosRec) :
    (OptionStrategy.staleUpdate w ph p a).2.openPremium = a.openPremium := by
  cases w <;> cases ph <;> rfl

/-- Stale marking does not change the close premium. -/
theorem staleUpdate_snd_closePremium (w : Bool) (ph : OptionStrategy.OrderPhase)
    (p : OptionStrategy.PhaseState) (a : OptionStrategy.AllPosRec) :
    (OptionStrategy.staleUpdate w ph p a).2.closePremium = a.closePremium := by
  cases w <;> cases ph <;> rfl

/-- Appending the first-fill order does not change the fill counter. -/
theorem appendFirstFillOrder_fills (oid cf : ℕ) (p : OptionStrategy.PhaseState) :
    (OptionStrategy.appendFirstFillOrder oid cf p).fills = p.fills := by
  unfold OptionStrategy.appendFirstFillOrder
  split <;> rfl

/-- Appending the first-fill order does not change the filled flag. -/
theorem appendFirstFillOrder_filled (oid cf : ℕ) (p : OptionStrategy.PhaseState) :
    (OptionStrategy.appendFirstFillOrder oid cf p).filled = p.filled := by
  unfold OptionStrategy.appendFirstFillOrder
  split <;> rfl

/-- The phase fill update adds the fill quantity. -/
theorem phaseFillUpdate_fills (q : ℕ) (p : OptionStrategy.PhaseState) :
    (OptionStrategy.phaseFillUpdate q p).fills = p.fills + q := rfl

/-- The phase fill update does not change the filled flag. -/
theorem phaseFillUpdate_filled (q : ℕ) (p : OptionStrategy.PhaseState) :
    (OptionStrategy.phaseFillUpdate q p).filled = p.filled := rfl

/-- Open-phase premium update subtracts the transaction amount from the open
premium. -/
theorem premiumUpdate_open_openPremium (t : ℚ) (a : OptionStrategy.AllPosRec) :
    (OptionStrategy.premiumUpdate OptionStrategy.OrderPhase.phOpen t a).openPremium
      = a.openPremium - t := rfl

/-- Open-phase premium update leaves the close premium. -/
theorem premiumUpdate_open_closePremium (t : ℚ) (a : OptionStrategy.AllPosRec) :
    (OptionStrategy.premiumUpdate OptionStrategy.OrderPhase.phOpen t a).closePremium
      = a.closePremium := rfl

/-- Close-phase premium update subtracts the transaction amount from the close
premium. -/
theorem premiumUpdate_close_closePremium (t : ℚ) (a : OptionStrategy.AllPosRec) :
    (OptionStrategy.premiumUpdate OptionStrategy.OrderPhase.phClose t a).closePremium
      = a.closePremium - t := rfl

/-- Close-phase premium update leaves the open premium. -/
theorem premiumUpdate_close_openPremium (t : ℚ) (a : OptionStrategy.AllPosRec) :
    (OptionStrategy.premiumUpdate OptionStrategy.OrderPhase.phClose t a).openPremium
      = a.openPremium := rfl

/-- The completion mark does not change the fill counter. -/
theorem completionMark_fills (ph : OptionStrategy.OrderPhase) (c : Bool) (o : ℚ)
    (p : OptionStrategy.PhaseState) :
    (OptionStrategy.completionMark ph c o p).fills = p.fills := by
  unfold OptionStrategy.completionMark
  cases c <;> cases ph <;> simp

/-- The completion mark sets the filled flag exactly when the phase completed
(or it was already set). -/
theorem completionMark_filled (ph : OptionStrategy.OrderPhase) (c : Bool) (o : ℚ)
    (p : OptionStrategy.PhaseState) :
    (OptionStrategy.completionMark ph c o p).filled = (p.filled || c) := by
  unfold OptionStrategy.completionMark
  cases c <;> cases ph <;> simp

/-- The leg fill update at the filled symbol: counter incremented, entry
removed exactly at the full position quantity. -/
theorem legFillUpdate_apply (sym : String) (q Q : ℕ)
    (wo : String → Option OptionStrategy.ContractInfo)
    (ci : OptionStrategy.ContractInfo) :
    OptionStrategy.legFillUpdate sym q Q wo ci sym
      = if ci.fills + q = Q then none else some { ci with fills := ci.fills + q } := by
  unfold OptionStrategy.legFillUpdate
  dsimp only
  split <;> simp_all [upd]

/-- Reading back the phase just set. -/
theorem phaseGet_phaseSet (pos : OptionStrategy.PositionRec)
    (ph : OptionStrategy.OrderPhase) (pr : OptionStrategy.PhaseState) :
    OptionStrategy.phaseGet (OptionStrategy.phaseSet pos ph pr) ph = pr := by
  cases ph <;> rfl

/-- Setting the open phase leaves the close phase. -/
theorem phaseSet_open_closePh (pos : OptionStrategy.PositionRec)
    (pr : OptionStrategy.PhaseState) :
    (OptionStrategy.phaseSet pos OptionStrategy.OrderPhase.phOpen pr).closePh
      = pos.closePh := rfl

/-- Setting the close phase leaves the open phase. -/
theorem phaseSet_close_openPh (pos : OptionStrategy.PositionRec)
    (pr : OptionStrategy.PhaseState) :
    (OptionStrategy.phaseSet pos OptionStrategy.OrderPhase.phClose pr).openPh
      = pos.openPh := rfl

/-- Reading back the open phase just set. -/
theorem phaseSet_open_openPh (pos : OptionStrategy.PositionRec)
    (pr : OptionStrategy.PhaseState) :
    (OptionStrategy.phaseSet pos OptionStrategy.OrderPhase.phOpen pr).openPh = pr := rfl

/-- Reading back the close phase just set. -/
theorem phaseSet_close_closePh (pos : OptionStrategy.PositionRec)
    (pr : OptionStrategy.PhaseState) :
    (OptionStrategy.phaseSet pos OptionStrategy.OrderPhase.phClose pr).closePh = pr := rfl

/-- C1: processing a fill event on a working order increments the matching leg
counter (removing the leg entry exactly when it reaches the position quantity)
and the phase counter by the absolute fill quantity, accumulates the phase
premium by minus fillQuantity times fillPrice times 100, marks the phase filled
exactly when the phase's cumulative fills equal the side-magnitude-weighted leg
count times the position quantity (partial fills leave the position present
with its other phase record untouched), and when the close phase completes
with both phases filled the position is removed from the open set with final
P&L equal to open premium plus close premium. -/
theorem OnOrderEvent_spec (s : OptionStrategy.LifecycleState) (e : OptionStrategy.OrderEvent)
    (workingOrder : String → Option OptionStrategy.ContractInfo)
    (contractInfo : OptionStrategy.ContractInfo)
    (pos : OptionStrategy.PositionRec) (ap : OptionStrategy.AllPosRec)
    (hst : e.Status = OptionStrategy.FillStatus.Filled
        ∨ e.Status = OptionStrategy.FillStatus.PartiallyFilled)
    (hwo : s.workingOrders e.Tag = some workingOrder)
    (hci : workingOrder e.Symbol = some contractInfo)
    (hop : s.openPositions contractInfo.expiryStr = some pos)
    (hap : s.allPositions contractInfo.orderId = some ap)
    (hnf : (OptionStrategy.phaseGet pos contractInfo.orderType).filled = false) :
    (((OptionStrategy.OnOrderEvent s e).workingOrders e.Tag).bind (fun m => m e.Symbol)
      = if contractInfo.fills + e.FillQuantity.natAbs = pos.orderQuantity then none
        else some { contractInfo with fills := contractInfo.fills + e.FillQuantity.natAbs })
    ∧ ((OptionStrategy.OnOrderEvent s e).workingOrders e.Tag).isSome = true
    ∧ ((OptionStrategy.OnOrderEvent s e).allPositions contractInfo.orderId).map
          (fun a => a.openPremium)
        = some (if contractInfo.orderType = OptionStrategy.OrderPhase.phOpen
            then ap.openPremium - (e.FillQuantity : ℚ) * e.FillPrice * 100
            else ap.openPremium)
    ∧ ((OptionStrategy.OnOrderEvent s e).allPositions contractInfo.orderId).map
          (fun a => a.closePremium)
        = some (if contractInfo.orderType = OptionStrategy.OrderPhase.phClose
            then ap.closePremium - (e.FillQuantity : ℚ) * e.FillPrice * 100
            else ap.closePremium)
    ∧ (¬(contractInfo.orderType = OptionStrategy.OrderPhase.phClose
          ∧ pos.openPh.filled = true
          ∧ (OptionStrategy.phaseGet pos contractInfo.orderType).fills + e.FillQuantity.natAbs
              = OptionStrategy.Nlegs pos * pos.orderQuantity) →
        ((OptionStrategy.OnOrderEvent s e).openPositions contractInfo.expiryStr).map
            (fun p => ((OptionStrategy.phaseGet p contractInfo.orderType).fills,
                       (OptionStrategy.phaseGet p contractInfo.orderType).filled,
                       if contractInfo.orderType = OptionStrategy.OrderPhase.phOpen
                       then p.closePh else p.openPh))
          = some ((OptionStrategy.phaseGet pos contractInfo.orderType).fills
                    + e.FillQuantity.natAbs,
                  decide ((OptionStrategy.phaseGet pos contractInfo.orderType).fills
                    + e.FillQuantity.natAbs
                    = OptionStrategy.Nlegs pos * pos.orderQuantity),
                  if contractInfo.orderType = OptionStrategy.OrderPhase.phOpen
                  then pos.closePh else pos.openPh))
    ∧ ((contractInfo.orderType = OptionStrategy.OrderPhase.phClose
          ∧ pos.openPh.filled = true
          ∧ (OptionStrategy.phaseGet pos contractInfo.orderType).fills + e.FillQuantity.natAbs
              = OptionStrategy.Nlegs pos * pos.orderQuantity) →
        (OptionStrategy.OnOrderEvent s e).openPositions contractInfo.expiryStr = none
        ∧ ((OptionStrategy.OnOrderEvent s e).allPositions contractInfo.orderId).map
              (fun a => a.PnL)
            = some (ap.openPremium
                + (ap.closePremium - (e.FillQuantity : ℚ) * e.FillPrice * 100))) := by
  obtain ⟨s2, hs2⟩ : ∃ x, OptionStrategy.OnOrderEvent s e = x := ⟨_, rfl⟩
  rw [hs2]
  unfold OptionStrategy.OnOrderEvent at hs2
  rw [if_neg (not_not_intro hst), hwo] at hs2
  dsimp only at hs2
  rw [hci] at hs2
  dsimp only at hs2
  rw [hop] at hs2
  dsimp only at hs2
  rw [hap] at hs2
  dsimp only at hs2
  subst hs2
  cases hph : contractInfo.orderType with
  | phOpen =>
    rw [hph] at hnf
    dsimp only [OptionStrategy.phaseGet] at hnf ⊢
    rw [if_neg (fun hcc => OptionStrategy.OrderPhase.noConfusion hcc.1)]
    refine ⟨?_, ?_, ?_, ?_, ?_, ?_⟩
    · simp [upd, legFillUpdate_apply, hph]
    · simp [upd]
    · simp [upd, premiumUpdate_open_openPremium, staleUpdate_snd_openPremium]
    · simp [upd, premiumUpdate_open_closePremium, staleUpdate_snd_closePremium]
    · intro hnr
      simp [upd, phaseGet_phaseSet, phaseSet_open_closePh, phaseSet_open_openPh,
        completionMark_fills, completionMark_filled, phaseFillUpdate_fills,
        phaseFillUpdate_filled, appendFirstFillOrder_fills, appendFirstFillOrder_filled,
        staleUpdate_fst_fills, staleUpdate_fst_filled, hnf, OptionStrategy.phaseGet]
    · intro hr
      exact absurd hr.1 (by simp)
  | phClose =>
    rw [hph] at hnf
    dsimp only [OptionStrategy.phaseGet] at hnf ⊢
    have hcfill : ∀ pr4 : OptionStrategy.PhaseState,
        (OptionStrategy.phaseSet pos OptionStrategy.OrderPhase.phClose pr4).openPh
          = pos.openPh := fun pr4 => phaseSet_close_openPh pos pr4
    by_cases hopr : pos.openPh.filled = true
    · by_cases hcomp : pos.closePh.fills + e.FillQuantity.natAbs
          = OptionStrategy.Nlegs pos * pos.orderQuantity
      · -- removal case
        rw [if_pos]
        · refine ⟨?_, ?_, ?_, ?_, ?_, ?_⟩
          · simp [upd, legFillUpdate_apply, hph]
          · simp [upd]
          · simp [upd, premiumUpdate_close_openPremium, staleUpdate_snd_openPremium]
          · simp [upd, premiumUpdate_close_closePremium, staleUpdate_snd_closePremium]
          · intro hnr
            exact absurd ⟨rfl, hopr, hcomp⟩ hnr
          · intro hr
            refine ⟨by simp [upd], ?_⟩
            simp [upd, premiumUpdate_close_openPremium, premiumUpdate_close_closePremium,
              staleUpdate_snd_openPremium, staleUpdate_snd_closePremium]
        · refine ⟨rfl, ?_, ?_⟩
          · rw [phaseSet_close_openPh]
            exact hopr
          · rw [phaseSet_close_closePh, completionMark_filled, phaseFillUpdate_filled,
              appendFirstFillOrder_filled, staleUpdate_fst_filled, hnf]
            simp [phaseFillUpdate_fills, appendFirstFillOrder_fills, staleUpdate_fst_fills,
              hcomp]
      · -- close fill, not completing: stays
        rw [if_neg]
        · refine ⟨?_, ?_, ?_, ?_, ?_, ?_⟩
          · simp [upd, legFillUpdate_apply, hph]
          · simp [upd]
          · simp [upd, premiumUpdate_close_openPremium, staleUpdate_snd_openPremium]
          · simp [upd, premiumUpdate_close_closePremium, staleUpdate_snd_closePremium]
          · intro hnr
            simp [upd, phaseGet_phaseSet, phaseSet_close_openPh, phaseSet_close_closePh,
              completionMark_fills, completionMark_filled, phaseFillUpdate_fills,
              phaseFillUpdate_filled, appendFirstFillOrder_fills, appendFirstFillOrder_filled,
              staleUpdate_fst_fills, staleUpdate_fst_filled, hnf, OptionStrategy.phaseGet]
          · intro hr
            exact absurd hr.2.2 hcomp
        · rintro ⟨-, -, hcl⟩
          rw [phaseSet_close_closePh, completionMark_filled, phaseFillUpdate_filled,
            appendFirstFillOrder_filled, staleUpdate_fst_filled, hnf] at hcl
          simp [phaseFillUpdate_fills, appendFirstFillOrder_fills, staleUpdate_fst_fills,
            completionMark_fills, hcomp] at hcl
    · -- open phase not filled: never removed
      rw [if_neg]
      · refine ⟨?_, ?_, ?_, ?_, ?_, ?_⟩
        · simp [upd, legFillUpdate_apply, hph]
        · simp [upd]
        · simp [upd, premiumUpdate_close_openPremium, staleUpdate_snd_openPremium]
        · simp [upd, premiumUpdate_close_closePremium, staleUpdate_snd_closePremium]
        · intro hnr
          simp [upd, phaseGet_phaseSet, phaseSet_close_openPh, phaseSet_close_closePh,
            completionMark_fills, completionMark_filled, phaseFillUpdate_fills,
            phaseFillUpdate_filled, appendFirstFillOrder_fills, appendFirstFillOrder_filled,
            staleUpdate_fst_fills, staleUpdate_fst_filled, hnf, OptionStrategy.phaseGet]
        · intro hr
          exact absurd hr.2.1 hopr
      · rintro ⟨-, hof, -⟩
        rw [phaseSet_close_openPh] at hof
        exact hopr hof

/-- Witness for `OnOrderEvent_spec`: a partial fill of one contract (of two) on
the open leg of the sample position leaves its working-order entry with one
fill recorded. -/
theorem OnOrderEvent_spec_witness :
    (((OptionStrategy.OnOrderEvent OptionStrategy.sampleState
          OptionStrategy.sampleEvent).workingOrders OptionStrategy.sampleEvent.Tag).bind
        (fun m => m OptionStrategy.sampleEvent.Symbol))
      = some { orderId := 1, expiryStr := "e", orderType := OptionStrategy.OrderPhase.phOpen
               , fills := 1 } := by
  have h := (OnOrderEvent_spec OptionStrategy.sampleState OptionStrategy.sampleEvent
      OptionStrategy.sampleWorkingOrder OptionStrategy.sampleContractInfo
      OptionStrategy.samplePosition OptionStrategy.sampleAllPos
      (Or.inr rfl) rfl rfl rfl rfl rfl).1
  simpa [OptionStrategy.sampleContractInfo, OptionStrategy.samplePosition,
    OptionStrategy.sampleEvent] using h

/-- C6: a position awaiting its opening fill with zero fills whose limit-order
deadline has passed at the periodic tick has its pending limit order and the
position removed, its working orders cleared, and its reporting record marked
cancelled (kept only when cancelled orders are to be included); no market
order is submitted. -/
theorem manageUnfilledPosition_spec (includeCancelledOrders : Bool) (now : ℚ)
    (s : OptionStrategy.LifecycleState) (expiryStr : String)
    (position : OptionStrategy.PositionRec) (rec0 : OptionStrategy.AllPosRec)
    (hop : s.openPositions expiryStr = some position)
    (hfil : position.openPh.filled = false)
    (hz : position.openPh.fills = 0)
    (ht : now > position.openPh.limitOrderExpiryDttm)
    (hap : s.allPositions position.orderId = some rec0) :
    (OptionStrategy.manageUnfilledPosition includeCancelledOrders now s expiryStr).2 = []
    ∧ (OptionStrategy.manageUnfilledPosition includeCancelledOrders now s
        expiryStr).1.limitOrders position.orderTag = none
    ∧ (OptionStrategy.manageUnfilledPosition includeCancelledOrders now s
        expiryStr).1.openPositions expiryStr = none
    ∧ (OptionStrategy.manageUnfilledPosition includeCancelledOrders now s
        expiryStr).1.workingOrders position.orderTag = some (fun _ => none)
    ∧ (OptionStrategy.manageUnfilledPosition includeCancelledOrders now s
        expiryStr).1.allPositions position.orderId
        = (if includeCancelledOrders then some { rec0 with orderCancelled := true }
           else none) := by
  obtain ⟨r, hr⟩ : ∃ x,
      OptionStrategy.manageUnfilledPosition includeCancelledOrders now s expiryStr = x :=
    ⟨_, rfl⟩
  rw [hr]
  unfold OptionStrategy.manageUnfilledPosition at hr
  rw [hop] at hr
  dsimp only at hr
  rw [if_neg (by simp [hz])] at hr
  rw [if_pos ht] at hr
  rw [hap] at hr
  dsimp only at hr
  subst hr
  refine ⟨rfl, by simp [upd], by simp [upd], by simp [upd], by simp [upd]⟩

/-- Witness for `manageUnfilledPosition_spec`: the sample position (zero fills,
deadline 0) is cancelled at time 1 with cancelled orders kept. -/
theorem manageUnfilledPosition_spec_witness :
    (OptionStrategy.manageUnfilledPosition true 1 OptionStrategy.sampleState "e").2 = []
    ∧ (OptionStrategy.manageUnfilledPosition true 1 OptionStrategy.sampleState
        "e").1.limitOrders "SP-1" = none
    ∧ (OptionStrategy.manageUnfilledPosition true 1 OptionStrategy.sampleState
        "e").1.openPositions "e" = none
    ∧ (OptionStrategy.manageUnfilledPosition true 1 OptionStrategy.sampleState
        "e").1.workingOrders "SP-1" = some (fun _ => none)
    ∧ (OptionStrategy.manageUnfilledPosition true 1 OptionStrategy.sampleState
        "e").1.allPositions 1
        = some { OptionStrategy.sampleAllPos with orderCancelled := true } := by
  have h := manageUnfilledPosition_spec true 1 OptionStrategy.sampleState "e"
    OptionStrategy.samplePosition OptionStrategy.sampleAllPos rfl rfl rfl
    (by norm_num [OptionStrategy.samplePosition, OptionStrategy.samplePhase]) rfl
  exact ⟨h.1, h.2.1, h.2.2.1, h.2.2.2.1, h.2.2.2.2⟩

/-- C7: an order whose quantity is zero or whose aggregate mid-price sign does
not match the credit/debit flag is silently rejected by `openPosition`: the
state is returned unchanged (no open-position, working-order or limit-order
table entry) and no market order is submitted. -/
theorem openPosition_rejects (params : OptionStrategy.OpenPositionParams)
    (s : OptionStrategy.LifecycleState) (order : OptionStrategy.OrderRec)
    (h : order.orderQuantity = 0
        ∨ OptionStrategy.npSign order.openPh.orderMidPrice
            ≠ 2 * (if order.creditStrategy then 1 else 0) - 1) :
    OptionStrategy.openPosition params s (some order) = (s, []) := by
  unfold OptionStrategy.openPosition
  dsimp only
  split
  · rfl
  · rcases h with h | h
    · rw [if_pos (Or.inl h)]
    · rw [if_pos (Or.inr (Or.inl h))]

/-- Witness for `openPosition_rejects`: a fully built order with quantity zero
is rejected with no state change and no submission. -/
theorem openPosition_rejects_witness :
    OptionStrategy.openPosition OptionStrategy.sampleParams OptionStrategy.sampleState
      (some OptionStrategy.sampleRejectedOrder) = (OptionStrategy.sampleState, []) :=
  openPosition_rejects OptionStrategy.sampleParams OptionStrategy.sampleState
    OptionStrategy.sampleRejectedOrder (Or.inl rfl)
